import Mathlib

/-!
# Verification of the FrontBridge request/response correlation core

Shallow embedding of `src/src/lib.rs` (AstroBox-NG-Module-FrontBridge).
The source is a correlation engine: `invoke_frontend` allocates a fresh
u64 id from an atomic counter, registers a oneshot sender in a pending
map, serializes and emits a request event, and awaits the matching reply;
a listener decodes inbound response events and resolves the waiter
registered under the reply's id.

Modelling conventions:
* `u64` is `Nat`; wraparound of the atomic counter is modelled explicitly
  with `% u64Size` where the source's `fetch_add` wraps.
* `serde_json::Value` is the inductive `Value` below.
* The oneshot sender stored in the pending map is modelled by an opaque
  token (`Nat`): only its identity matters for correlation.
* The `Mutex` around the pending map serializes accesses; the embedding
  therefore treats each table operation as one atomic step.  Lock
  poisoning (which the source treats as fatal) has no pure counterpart
  and is modelled as the lock always succeeding.
* Fallible operations return `Option`/`Except`; the listener's decode
  failure branch (log and drop) is modelled as the identity on the state.
-/

namespace FrontBridge

/-- Modulus of the source's `AtomicU64` counter, i.e. 2^64. -/
def u64Size : Nat := 2 ^ 64

/-- Embedding of `serde_json::Value`. -/
inductive Value where
  | null
  | bool (b : Bool)
  | num (n : Int)
  | str (s : String)
  | arr (elems : List Value)
  | obj (fields : List (String × Value))

/-- Embedding of `serde_json::Value::is_null` (used at line 116 of the source). -/
def Value.isNull : Value → Bool
  | .null => true
  | _ => false

/-- First-occurrence field lookup in a JSON object's field list
(serde's field matching for struct deserialization). -/
def getField : List (String × Value) → String → Option Value
  | [], _ => none
  | (k, v) :: rest, key => if k = key then some v else getField rest key

/-- The field names of a JSON object (empty for non-objects). -/
def Value.objKeys : Value → List String
  | .obj fs => fs.map Prod.fst
  | _ => []

/-- Field lookup on a JSON value: `some v` iff the value is an object
carrying the key. -/
def Value.getFieldVal : Value → String → Option Value
  | .obj fs, key => getField fs key
  | _, _ => none

/-- Embedding of `FrontInvokeRequest` (lines 19-25): the outbound request,
with `payload` optional and skipped during serialization when `None`. -/
structure FrontInvokeRequest where
  id : Nat
  method : String
  payload : Option Value

/-- Embedding of `FrontInvokeResponse` (lines 27-35): the decoded inbound
reply.  `data` and `error` carry `#[serde(default)]`, so their absence
decodes to `none`. -/
structure FrontInvokeResponse where
  id : Nat
  success : Bool
  data : Option Value
  error : Option String

/-- serde deserialization of a `u64` field from a JSON value: a number
that is a non-negative integer below 2^64 (matching on `Int.ofNat`
selects exactly the non-negative integers). -/
def decodeU64 : Value → Option Nat
  | .num (.ofNat n) => if n < u64Size then some n else none
  | _ => none

/-- serde deserialization of a `bool` field. -/
def decodeBool : Value → Option Bool
  | .bool b => some b
  | _ => none

/-- serde deserialization of an `Option<Value>` field that is present:
JSON `null` becomes `none`, anything else `some`. -/
def decodeOptValue : Value → Option (Option Value)
  | .null => some none
  | v => some (some v)

/-- serde deserialization of an `Option<String>` field that is present:
`null` becomes `none`, a string `some`, anything else a decode error. -/
def decodeOptString : Value → Option (Option String)
  | .null => some none
  | .str s => some (some s)
  | _ => none

/-- Extraction of a required struct field: the field must be present
and its value must deserialize. -/
def decodeField {α : Type} (fs : List (String × Value)) (key : String)
    (one : Value → Option α) : Option α :=
  (getField fs key).bind one

/-- Extraction of a `#[serde(default)]` optional struct field: absence
defaults to `none`; a present value must deserialize. -/
def decodeDefaulted {α : Type} (fs : List (String × Value)) (key : String)
    (one : Value → Option (Option α)) : Option (Option α) :=
  match getField fs key with
  | none => some none
  | some v => one v

/-- serde deserialization of `FrontInvokeResponse` from a JSON value
(the `serde_json::from_str::<FrontInvokeResponse>` call at line 54,
with the text already parsed into a JSON value): `id` and `success`
are required; `data` and `error` are `#[serde(default)]`, so a missing
field defaults to `none`; any field failing to deserialize fails the
whole decode. -/
def decodeResponse (v : Value) : Option FrontInvokeResponse :=
  match v with
  | .obj fs =>
    (decodeField fs "id" decodeU64).bind fun id =>
    (decodeField fs "success" decodeBool).bind fun success =>
    (decodeDefaulted fs "data" decodeOptValue).bind fun data =>
    (decodeDefaulted fs "error" decodeOptString).bind fun error =>
    some ⟨id, success, data, error⟩
  | _ => none

/-- serde serialization of `FrontInvokeRequest` to a JSON value:
`id` and `method` always, `payload` only when present
(`#[serde(skip_serializing_if = "Option::is_none")]`, lines 23-24). -/
def encodeRequest (r : FrontInvokeRequest) : Value :=
  .obj ([("id", Value.num (r.id : Int)), ("method", Value.str r.method)] ++
    (match r.payload with
     | none => []
     | some v => [("payload", v)]))

/-- Construction of the outbound request from the serialized payload
(lines 113-117): `payload: (!payload_value.is_null()).then_some(payload_value)`. -/
def mkRequest (id : Nat) (method : String) (payloadValue : Value) :
    FrontInvokeRequest :=
  { id := id, method := method,
    payload := if payloadValue.isNull then none else some payloadValue }

/-! ## The pending table

The source's `HashMap<u64, oneshot::Sender<FrontInvokeResponse>>` is
modelled as an association list with unique keys maintained by
insertion: `insert` replaces any previous binding (as `HashMap::insert`
does) and `remove` deletes the binding (as `HashMap::remove` does,
returning the removed value via `lookupPending`). -/

/-- Lookup in the pending table, `HashMap::get` style (first occurrence). -/
def lookupPending {α : Type} : List (Nat × α) → Nat → Option α
  | [], _ => none
  | (k, a) :: rest, id => if k = id then some a else lookupPending rest id

/-- Removal from the pending table, as `HashMap::remove`: delete the binding for `id`. -/
def erasePending {α : Type} : List (Nat × α) → Nat → List (Nat × α)
  | [], _ => []
  | (k, a) :: rest, id => if k = id then rest else (k, a) :: erasePending rest id

/-- Insertion into the pending table, as `HashMap::insert`: bind `id` to `a`,
replacing any previous binding. -/
def insertPending {α : Type} (m : List (Nat × α)) (id : Nat) (a : α) :
    List (Nat × α) :=
  (id, a) :: erasePending m id

/-! ## Correlation state and its transitions

`SysState` embeds `FrontInvokeState` (lines 37-40): `next_id` for the
atomic counter and `pending` for the table, whose stored oneshot senders
are modelled as opaque caller tokens.  Two history variables record what
the source makes observable through its side effects: `registered`
logs each (caller, allocated id) pair produced by the call path, and
`delivered` logs each `tx.send(resp)` performed by `resolve`
(the reply each suspended caller resumes with). -/

structure SysState where
  next_id : Nat
  pending : List (Nat × Nat)
  registered : List (Nat × Nat)
  delivered : List (Nat × FrontInvokeResponse)

/-- Embedding of `FrontInvokeState::new` (lines 43-48): counter starts at 1,
table empty. -/
def SysState.initial : SysState :=
  { next_id := 1, pending := [], registered := [], delivered := [] }

/-- Embedding of `state.next_id.fetch_add(1, Ordering::Relaxed)` (line 108):
returns the current counter and stores its wrapping successor. -/
def fetchAddNextId (s : SysState) : Nat × SysState :=
  (s.next_id, { s with next_id := (s.next_id + 1) % u64Size })

/-- The ids returned by `n` successive `fetch_add` allocations. -/
def allocSeq : Nat → SysState → List Nat
  | 0, _ => []
  | n + 1, s =>
    let (id, s') := fetchAddNextId s
    id :: allocSeq n s'

/-- The registration prefix of `invoke_frontend` (lines 108-110) by
caller `c`: allocate an id and insert the caller's completion handle
under it (`add_pending`, lines 79-85). -/
def SysState.doInvoke (s : SysState) (c : Nat) : SysState :=
  let (id, s') := fetchAddNextId s
  { s' with pending := insertPending s'.pending id c,
            registered := (c, id) :: s'.registered }

/-- Embedding of `FrontInvokeState::resolve` (lines 63-77): remove the pending entry
for `resp.id`; if one was present, send `resp` to it (recorded in
`delivered`); otherwise only a warning is logged and nothing changes. -/
def SysState.doResolve (s : SysState) (resp : FrontInvokeResponse) : SysState :=
  match lookupPending s.pending resp.id with
  | some c =>
    { s with pending := erasePending s.pending resp.id,
             delivered := (c, resp) :: s.delivered }
  | none => s

/-- The response listener body (lines 52-60): decode the inbound event's
payload; on success resolve, on failure log and drop (state unchanged). -/
def SysState.onInbound (s : SysState) (v : Value) : SysState :=
  match decodeResponse v with
  | some resp => s.doResolve resp
  | none => s

/-- An externally triggered step: either some caller starts a call, or
an inbound response event arrives at the listener. -/
inductive Event where
  | invoke (c : Nat)
  | inbound (v : Value)

/-- One step of the system. -/
def SysState.step (s : SysState) : Event → SysState
  | .invoke c => s.doInvoke c
  | .inbound v => s.onInbound v

/-- Run a sequence of events. -/
def runEvents (s : SysState) : List Event → SysState
  | [] => s
  | e :: es => runEvents (s.step e) es

/-- Whether an event is an inbound reply that decodes to the given id. -/
def eventResolvesId : Event → Nat → Bool
  | .invoke _, _ => false
  | .inbound v, id =>
    match decodeResponse v with
    | some r => r.id == id
    | none => false

/-- Number of `invoke` events in a trace. -/
def countInvokes : List Event → Nat
  | [] => 0
  | .invoke _ :: es => countInvokes es + 1
  | .inbound _ :: es => countInvokes es

/-! ## The tail of the call path -/

/-- Outcome of `rx.await` on the oneshot receiver (lines 123-125): either
the registered sender delivered a reply, or it was dropped and the
channel closed without a value. -/
inductive RecvOutcome where
  | received (resp : FrontInvokeResponse)
  | closed

/-- Lines 123-135 of `invoke_frontend`: await the oneshot receiver and
interpret the outcome.  `deser` is the caller's typed deserialization
`serde_json::from_value::<R>`.  A closed channel yields the
dropped-without-response error; `success = true` deserializes
`resp.data` (or JSON null when absent); `success = false` yields an
error carrying the method name and the reply's error message, with
`"unknown error"` as the placeholder. -/
def completeInvoke {ρ : Type} (method : String) (outcome : RecvOutcome)
    (deser : Value → Except String ρ) : Except String ρ :=
  match outcome with
  | .closed =>
    .error ("frontend invoke " ++ method ++ " dropped without response")
  | .received resp =>
    if resp.success then
      match deser (resp.data.getD Value.null) with
      | .ok v => .ok v
      | .error e => .error ("deserialize frontend response: " ++ e)
    else
      .error ("frontend invoke " ++ method ++ " failed: " ++
        resp.error.getD "unknown error")

/-- Result of one `invoke_frontend` call: the state after the
synchronous prefix, the allocated id, the request actually published
(`none` when nothing was emitted), and the caller's result. -/
structure InvokeResult (ρ : Type) where
  state : SysState
  id : Nat
  emitted : Option FrontInvokeRequest
  result : Except String ρ

/-- Embedding of `invoke_frontend` (lines 97-135) for caller token `c`.
`payloadSer` is the outcome of `serde_json::to_value(payload)`;
`emitOk` whether `app_handle.emit` succeeds; `recv` the eventual
outcome of awaiting the oneshot receiver; `deser` the typed result
deserialization.  Order of operations follows the source: allocate id,
register the pending entry, then serialize the payload, then emit,
then await. -/
def invoke_frontend {ρ : Type} (s : SysState) (c : Nat) (method : String)
    (payloadSer : Except String Value) (emitOk : Bool)
    (recv : RecvOutcome) (deser : Value → Except String ρ) : InvokeResult ρ :=
  let (id, s1) := fetchAddNextId s
  let s2 : SysState :=
    { s1 with pending := insertPending s1.pending id c,
              registered := (c, id) :: s1.registered }
  match payloadSer with
  | .error e =>
    { state := s2, id := id, emitted := none,
      result := .error ("serialize frontend payload: " ++ e) }
  | .ok payload_value =>
    let request := mkRequest id method payload_value
    if emitOk then
      { state := s2, id := id, emitted := some request,
        result := completeInvoke method recv deser }
    else
      { state := s2, id := id, emitted := none,
        result := .error "emit frontend invoke event" }

/-! ## Properties of the pending table -/

theorem lookupPending_insert_self {α : Type} (m : List (Nat × α)) (id : Nat)
    (a : α) : lookupPending (insertPending m id a) id = some a := by
  simp [insertPending, lookupPending]

theorem mem_of_mem_erasePending {α : Type} {m : List (Nat × α)} {id : Nat}
    {x : Nat × α} (h : x ∈ erasePending m id) : x ∈ m := by
  induction m with
  | nil => simp [erasePending] at h
  | cons hd tl ih =>
    obtain ⟨k, a⟩ := hd
    by_cases hk : k = id
    · simp only [erasePending, if_pos hk] at h
      exact List.mem_cons_of_mem _ h
    · simp only [erasePending, if_neg hk, List.mem_cons] at h
      rcases h with h | h
      · exact h ▸ List.mem_cons_self _ _
      · exact List.mem_cons_of_mem _ (ih h)

theorem mem_of_lookupPending_eq_some {α : Type} {m : List (Nat × α)} {id : Nat}
    {a : α} (h : lookupPending m id = some a) : (id, a) ∈ m := by
  induction m with
  | nil => simp [lookupPending] at h
  | cons hd tl ih =>
    obtain ⟨k, b⟩ := hd
    by_cases hk : k = id
    · simp only [lookupPending, if_pos hk] at h
      subst hk
      obtain rfl : b = a := Option.some.inj h
      exact List.mem_cons_self _ _
    · simp only [lookupPending, if_neg hk] at h
      exact List.mem_cons_of_mem _ (ih h)

theorem lookupPending_erasePending_ne {α : Type} (m : List (Nat × α))
    {id idr : Nat} (h : id ≠ idr) :
    lookupPending (erasePending m idr) id = lookupPending m id := by
  induction m with
  | nil => simp [erasePending]
  | cons hd tl ih =>
    obtain ⟨k, a⟩ := hd
    by_cases hk : k = idr
    · subst hk
      simp [erasePending, lookupPending, Ne.symm h]
    · by_cases hki : k = id
      · subst hki
        simp [erasePending, lookupPending, hk]
      · simp [erasePending, lookupPending, hk, hki, ih]

theorem lookupPending_eq_none_of_not_mem {α : Type} {m : List (Nat × α)}
    {id : Nat} (h : id ∉ m.map Prod.fst) : lookupPending m id = none := by
  induction m with
  | nil => simp [lookupPending]
  | cons hd tl ih =>
    obtain ⟨k, a⟩ := hd
    simp only [List.map_cons, List.mem_cons] at h
    push_neg at h
    simp only [lookupPending, if_neg (Ne.symm h.1)]
    exact ih h.2

theorem lookupPending_erasePending_self {α : Type} {m : List (Nat × α)}
    (id : Nat) (hnd : (m.map Prod.fst).Nodup) :
    lookupPending (erasePending m id) id = none := by
  induction m with
  | nil => simp [erasePending, lookupPending]
  | cons hd tl ih =>
    obtain ⟨k, a⟩ := hd
    simp only [List.map_cons, List.nodup_cons] at hnd
    by_cases hk : k = id
    · subst hk
      simp only [erasePending, if_pos rfl]
      exact lookupPending_eq_none_of_not_mem hnd.1
    · simp only [erasePending, if_neg hk, lookupPending, if_neg hk]
      exact ih hnd.2

/-! ## Claim theorems -/

/-- C6: an inbound event whose payload fails to decode as a
`FrontInvokeResponse` is logged and dropped by the listener: the state
(pending table and histories) is left completely unchanged, so nothing
is removed from the pending table and no waiter is resolved; totality
of `SysState.onInbound` models the listener not crashing. -/
theorem malformed_event_is_dropped (s : SysState) (v : Value)
    (h : decodeResponse v = none) : s.onInbound v = s := by
  simp [SysState.onInbound, h]

/-- Witness for C6: a concrete event missing the required `id` field is
dropped, leaving a state with one in-flight call intact. -/
theorem malformed_event_is_dropped_witness :
    SysState.onInbound ⟨3, [(1, 5)], [(5, 1)], []⟩
        (Value.obj [("success", Value.bool true)]) =
      ⟨3, [(1, 5)], [(5, 1)], []⟩ :=
  malformed_event_is_dropped ⟨3, [(1, 5)], [(5, 1)], []⟩
    (Value.obj [("success", Value.bool true)]) rfl

/-- C3: resolving a reply whose id has no entry in the pending table
leaves the state (in particular every pending entry) unchanged and
resolves no waiter; and since `resolve` removes the table entry before
signalling the completion handle, a second reply bearing an
already-resolved id finds no entry and is inert. -/
theorem resolve_unmatched_or_duplicate_inert (s : SysState)
    (r r' : FrontInvokeResponse) (hid : r'.id = r.id)
    (hnd : (s.pending.map Prod.fst).Nodup) :
    (lookupPending s.pending r.id = none → s.doResolve r = s) ∧
    (s.doResolve r).doResolve r' = s.doResolve r := by
  constructor
  · intro h
    simp [SysState.doResolve, h]
  · cases h : lookupPending s.pending r.id with
    | none =>
      simp [SysState.doResolve, h, hid]
    | some c =>
      have h2 : lookupPending (erasePending s.pending r.id) r'.id = none := by
        rw [hid]
        exact lookupPending_erasePending_self r.id hnd
      simp [SysState.doResolve, h, h2]

/-- Witness for C3: on a table holding only id 7, a reply with id 9 is a
no-op, and a duplicate reply for id 7 after the first one resolved is
inert. -/
theorem resolve_unmatched_or_duplicate_inert_witness :
    (SysState.doResolve ⟨10, [(7, 42)], [(42, 7)], []⟩ ⟨9, true, none, none⟩ =
      ⟨10, [(7, 42)], [(42, 7)], []⟩) ∧
    ((SysState.doResolve ⟨10, [(7, 42)], [(42, 7)], []⟩
        ⟨7, true, none, none⟩).doResolve ⟨7, false, none, some "dup"⟩ =
      SysState.doResolve ⟨10, [(7, 42)], [(42, 7)], []⟩ ⟨7, true, none, none⟩) :=
  ⟨(resolve_unmatched_or_duplicate_inert ⟨10, [(7, 42)], [(42, 7)], []⟩
      ⟨9, true, none, none⟩ ⟨9, true, none, none⟩ rfl (by decide)).1 rfl,
   (resolve_unmatched_or_duplicate_inert ⟨10, [(7, 42)], [(42, 7)], []⟩
      ⟨7, true, none, none⟩ ⟨7, false, none, some "dup"⟩ rfl (by decide)).2⟩

/-- C8: when the oneshot completion handle is closed without ever
receiving a reply (the sender side dropped), `invoke_frontend` fails
with the dropped-without-response error, whose message names the
method being invoked. -/
theorem dropped_without_response {ρ : Type} (method : String)
    (deser : Value → Except String ρ) :
    completeInvoke method .closed deser =
      .error ("frontend invoke " ++ method ++ " dropped without response") ∧
    ∃ pre post, "frontend invoke " ++ method ++ " dropped without response" =
      pre ++ method ++ post :=
  ⟨rfl, "frontend invoke ", " dropped without response", rfl⟩

/-- C10: registration precedes payload serialization in
`invoke_frontend`: when serializing the caller's payload fails, the
call returns the serialization error and no request is emitted, yet
the pending table of the resulting state still holds the entry
registered under the freshly allocated id. -/
theorem serialization_failure_orphans_pending_entry {ρ : Type}
    (s : SysState) (c : Nat) (method : String) (e : String) (emitOk : Bool)
    (recv : RecvOutcome) (deser : Value → Except String ρ) :
    (invoke_frontend s c method (.error e) emitOk recv deser).emitted = none ∧
    (invoke_frontend s c method (.error e) emitOk recv deser).result =
      .error ("serialize frontend payload: " ++ e) ∧
    (invoke_frontend s c method (.error e) emitOk recv deser).id = s.next_id ∧
    lookupPending
      (invoke_frontend s c method (.error e) emitOk recv deser).state.pending
      (invoke_frontend s c method (.error e) emitOk recv deser).id = some c := by
  refine ⟨rfl, rfl, rfl, ?_⟩
  exact lookupPending_insert_self s.pending s.next_id c

/-- C5: a payload that serializes to JSON null yields an encoded request
containing no `payload` key at all, while a payload serializing to any
non-null value is embedded under the `payload` key of the encoded
request. -/
theorem payload_key_iff_not_null (id : Nat) (method : String) (pv : Value) :
    (pv.isNull = true →
      "payload" ∉ (encodeRequest (mkRequest id method pv)).objKeys) ∧
    (pv.isNull = false →
      (encodeRequest (mkRequest id method pv)).getFieldVal "payload" =
        some pv) := by
  constructor
  · intro h
    simp [mkRequest, h, encodeRequest, Value.objKeys]
  · intro h
    simp only [mkRequest, h, Bool.false_eq_true, if_false, encodeRequest,
      Value.getFieldVal]
    rfl

/-- Witness for C5: `call("ping", null)` encodes with no `payload` key;
a numeric payload is embedded under `payload`. -/
theorem payload_key_iff_not_null_witness :
    ("payload" ∉ (encodeRequest (mkRequest 1 "ping" Value.null)).objKeys) ∧
    ((encodeRequest (mkRequest 2 "echo" (Value.num 5))).getFieldVal "payload" =
      some (Value.num 5)) :=
  ⟨(payload_key_iff_not_null 1 "ping" Value.null).1 rfl,
   (payload_key_iff_not_null 2 "echo" (Value.num 5)).2 rfl⟩

/-- C4: when the matching reply has `success = false`, the call fails
with an error whose message carries the method name and the reply's
error string, falling back to the placeholder "unknown error" when the
reply has no error field; the message contains the method name and
ends in the error text. -/
theorem failed_reply_error_message {ρ : Type} (method : String)
    (resp : FrontInvokeResponse) (deser : Value → Except String ρ)
    (h : resp.success = false) :
    completeInvoke method (.received resp) deser =
      .error ("frontend invoke " ++ method ++ " failed: " ++
        resp.error.getD "unknown error") ∧
    (∃ pre post, "frontend invoke " ++ method ++ " failed: " ++
      resp.error.getD "unknown error" = pre ++ method ++ post) ∧
    (∃ pre2, "frontend invoke " ++ method ++ " failed: " ++
      resp.error.getD "unknown error" =
        pre2 ++ resp.error.getD "unknown error") := by
  refine ⟨?_,
    ⟨"frontend invoke ", " failed: " ++ resp.error.getD "unknown error", ?_⟩,
    ⟨"frontend invoke " ++ method ++ " failed: ", rfl⟩⟩
  · simp [completeInvoke, h]
  · rw [String.append_assoc]

/-- Witness for C4: the reply with id 7, `success:false` and error
"not found" decodes as expected, and completing the call with id 7 on
it yields an error whose text contains "not found". -/
theorem failed_reply_error_message_witness :
    decodeResponse (Value.obj [("id", Value.num 7),
        ("success", Value.bool false), ("error", Value.str "not found")]) =
      some ⟨7, false, none, some "not found"⟩ ∧
    completeInvoke "lookup" (.received ⟨7, false, none, some "not found"⟩)
        (fun v => Except.ok v) =
      Except.error ("frontend invoke " ++ "lookup" ++ " failed: " ++
        "not found") ∧
    ∃ pre2, ("frontend invoke " ++ "lookup" ++ " failed: " ++ "not found" :
        String) = pre2 ++ "not found" :=
  ⟨rfl,
   (failed_reply_error_message "lookup" ⟨7, false, none, some "not found"⟩
      (fun v => Except.ok v) rfl).1,
   (failed_reply_error_message "lookup" ⟨7, false, none, some "not found"⟩
      (fun v => Except.ok v) rfl).2.2⟩

/-- C7: decoding a reply whose `data` and `error` fields are absent
succeeds with both defaulting to `none`; and when the matching reply
has `success = true`, the reply's data — or explicit JSON null when
absent — is fed to the caller's typed deserialization, which is the
only remaining failure point: its success becomes the call's value and
its failure the call's (deserialization) error. -/
theorem success_reply_data_deserialized (ρ : Type) :
    (∀ (n : Nat) (b : Bool), n < u64Size →
      decodeResponse (Value.obj [("id", Value.num (Int.ofNat n)),
          ("success", Value.bool b)]) = some ⟨n, b, none, none⟩) ∧
    (∀ (method : String) (resp : FrontInvokeResponse)
        (deser : Value → Except String ρ), resp.success = true →
      (∀ v, deser (resp.data.getD Value.null) = .ok v →
        completeInvoke method (.received resp) deser = .ok v) ∧
      (∀ e, deser (resp.data.getD Value.null) = .error e →
        completeInvoke method (.received resp) deser =
          .error ("deserialize frontend response: " ++ e))) := by
  constructor
  · intro n b hn
    have h1 : decodeField [("id", Value.num (Int.ofNat n)),
        ("success", Value.bool b)] "id" decodeU64 =
        decodeU64 (Value.num (Int.ofNat n)) := rfl
    have h2 : decodeU64 (Value.num (Int.ofNat n)) = some n := by
      simp only [decodeU64, if_pos hn]
    simp only [decodeResponse, h1, h2, Option.some_bind]
    rfl
  · intro method resp deser hs
    constructor
    · intro v hv
      simp [completeInvoke, hs, hv]
    · intro e he
      simp [completeInvoke, hs, he]

/-- Witness for C7: a reply with only `id` and `success` decodes with
`data` and `error` defaulting to `none`, and a successful reply's data
is deserialized into the caller's value. -/
theorem success_reply_data_deserialized_witness :
    decodeResponse (Value.obj [("id", Value.num 7),
        ("success", Value.bool true)]) = some ⟨7, true, none, none⟩ ∧
    completeInvoke "getName" (.received ⟨7, true, some (Value.str "astro"), none⟩)
        (fun v => Except.ok v) = Except.ok (Value.str "astro") :=
  ⟨(success_reply_data_deserialized Value).1 7 true (by decide),
   ((success_reply_data_deserialized Value).2 "getName"
      ⟨7, true, some (Value.str "astro"), none⟩ (fun v => Except.ok v) rfl).1
      (Value.str "astro") rfl⟩

/-- Technical lemma for C2: from a state whose counter holds `k`, and
while `k + n` stays within the u64 range, `n` successive `fetch_add`
allocations return exactly `k, k+1, ..., k+n-1`. -/
theorem allocSeq_eq_range' :
    ∀ (n k : Nat) (p reg : List (Nat × Nat))
      (del : List (Nat × FrontInvokeResponse)), k + n ≤ u64Size →
      allocSeq n ⟨k, p, reg, del⟩ = List.range' k n := by
  intro n
  induction n with
  | zero => intro k p reg del _; rfl
  | succ m ih =>
    intro k p reg del h
    simp only [allocSeq, fetchAddNextId]
    rw [List.range'_succ]
    cases m with
    | zero => rfl
    | succ m2 =>
      have hmod : (k + 1) % u64Size = k + 1 := Nat.mod_eq_of_lt (by omega)
      rw [hmod]
      exact congrArg (List.cons k) (ih (k + 1) p reg del (by omega))

/-- C2: over any number `n < 2^64` of allocations on one process state
(starting from `FrontInvokeState::new`), the id allocator returns
exactly the ids 1, 2, ..., n: pairwise distinct, strictly increasing
in allocation order, and the first allocated id is 1; totality of
`fetchAddNextId`/`allocSeq` reflects that allocation cannot fail. -/
theorem next_id_strictly_increasing (n : Nat) (h : n < u64Size) :
    allocSeq n SysState.initial = List.range' 1 n ∧
    List.Pairwise (· < ·) (allocSeq n SysState.initial) ∧
    (allocSeq n SysState.initial).Nodup ∧
    (1 ≤ n → (allocSeq n SysState.initial).head? = some 1) := by
  have e : allocSeq n SysState.initial = List.range' 1 n :=
    allocSeq_eq_range' n 1 [] [] [] (by omega)
  refine ⟨e, ?_, ?_, ?_⟩
  · rw [e]
    exact List.pairwise_lt_range' 1 n
  · rw [e]
    exact List.nodup_range' 1 n
  · intro h1
    rw [e]
    cases n with
    | zero => omega
    | succ m => rw [List.range'_succ]; rfl

/-- Witness for C2 at four allocations: the ids come out as 1, 2, 3, 4. -/
theorem next_id_strictly_increasing_witness :
    allocSeq 4 SysState.initial = List.range' 1 4 ∧
    List.Pairwise (· < ·) (allocSeq 4 SysState.initial) ∧
    (allocSeq 4 SysState.initial).Nodup ∧
    (1 ≤ 4 → (allocSeq 4 SysState.initial).head? = some 1) :=
  next_id_strictly_increasing 4 (by decide)

/-! ## Correlation invariant for C1 -/

/-- Consistency of a state with its registration history: every pending
entry was registered under its id, and every delivered reply went to
the caller registered under the reply's id. -/
def CorrInv (s : SysState) : Prop :=
  (∀ id c, (id, c) ∈ s.pending → (c, id) ∈ s.registered) ∧
  (∀ c r, (c, r) ∈ s.delivered → (c, r.id) ∈ s.registered)

theorem corrInv_step (s : SysState) (e : Event) (h : CorrInv s) :
    CorrInv (s.step e) := by
  obtain ⟨hp, hd⟩ := h
  cases e with
  | invoke c =>
    constructor
    · intro id' c' hmem
      simp only [SysState.step, SysState.doInvoke, fetchAddNextId,
        insertPending, List.mem_cons] at hmem ⊢
      rcases hmem with heq | hmem2
      · rw [Prod.mk.injEq] at heq
        obtain ⟨h1, h2⟩ := heq
        left
        simp [h1, h2]
      · right
        exact hp id' c' (mem_of_mem_erasePending hmem2)
    · intro c' r hmem
      simp only [SysState.step, SysState.doInvoke, fetchAddNextId] at hmem ⊢
      exact List.mem_cons_of_mem _ (hd c' r hmem)
  | inbound v =>
    simp only [SysState.step, SysState.onInbound]
    cases hdec : decodeResponse v with
    | none => exact ⟨hp, hd⟩
    | some r =>
      simp only [SysState.doResolve]
      cases hl : lookupPending s.pending r.id with
      | none => exact ⟨hp, hd⟩
      | some c =>
        constructor
        · intro id' c' hmem
          exact hp id' c' (mem_of_mem_erasePending hmem)
        · intro c' r' hmem
          simp only [List.mem_cons] at hmem
          rcases hmem with heq | hmem2
          · rw [Prod.mk.injEq] at heq
            obtain ⟨h1, h2⟩ := heq
            rw [h1, h2]
            exact hp r.id c (mem_of_lookupPending_eq_some hl)
          · exact hd c' r' hmem2

theorem corrInv_run (evs : List Event) (s : SysState) (h : CorrInv s) :
    CorrInv (runEvents s evs) := by
  induction evs generalizing s with
  | nil => exact h
  | cons e es ih => exact ih (s.step e) (corrInv_step s e h)

theorem corrInv_initial : CorrInv SysState.initial := by
  constructor <;> intro a b hmem <;> simp [SysState.initial] at hmem

/-- C1: over any trace of calls and inbound replies, every reply
delivered to a suspended caller has exactly the id that was allocated
for that caller; and each inbound event either changes nothing or
resolves exactly the one waiter found in the pending table under the
decoded reply's id, removing its entry — so a reply resolves the
waiter registered under `reply.id` and no other, regardless of
arrival order. -/
theorem reply_resolves_matching_waiter :
    (∀ (evs : List Event) (c : Nat) (r : FrontInvokeResponse),
      (c, r) ∈ (runEvents SysState.initial evs).delivered →
      (c, r.id) ∈ (runEvents SysState.initial evs).registered) ∧
    (∀ (s : SysState) (v : Value),
      s.onInbound v = s ∨
      ∃ r c, decodeResponse v = some r ∧
        lookupPending s.pending r.id = some c ∧
        s.onInbound v = { s with pending := erasePending s.pending r.id,
                                 delivered := (c, r) :: s.delivered }) := by
  constructor
  · intro evs c r hmem
    exact (corrInv_run evs SysState.initial corrInv_initial).2 c r hmem
  · intro s v
    cases hdec : decodeResponse v with
    | none =>
      left
      simp [SysState.onInbound, hdec]
    | some r =>
      cases hl : lookupPending s.pending r.id with
      | none =>
        left
        simp [SysState.onInbound, SysState.doResolve, hdec, hl]
      | some c =>
        right
        exact ⟨r, c, rfl, hl, by
          simp [SysState.onInbound, SysState.doResolve, hdec, hl]⟩

/-- Witness for C1 on a concrete trace: two calls (tokens 10 and 20,
allocated ids 1 and 2) whose replies arrive in reverse order; caller 10
is resumed with the reply carrying its own id 1. -/
theorem reply_resolves_matching_waiter_witness :
    ((10 : Nat), (1 : Nat)) ∈ (runEvents SysState.initial
      [Event.invoke 10, Event.invoke 20,
       Event.inbound (Value.obj [("id", Value.num 2),
         ("success", Value.bool true)]),
       Event.inbound (Value.obj [("id", Value.num 1),
         ("success", Value.bool true)])]).registered :=
  reply_resolves_matching_waiter.1
    [Event.invoke 10, Event.invoke 20,
     Event.inbound (Value.obj [("id", Value.num 2),
       ("success", Value.bool true)]),
     Event.inbound (Value.obj [("id", Value.num 1),
       ("success", Value.bool true)])]
    10 ⟨1, true, none, none⟩ (List.Mem.head _)

/-! ## Persistence of abandoned entries for C9 -/

theorem onInbound_next_id (s : SysState) (v : Value) :
    (s.onInbound v).next_id = s.next_id := by
  simp only [SysState.onInbound]
  cases decodeResponse v with
  | none => rfl
  | some r =>
    simp only [SysState.doResolve]
    cases lookupPending s.pending r.id <;> rfl

/-- C9: if a pending entry is registered under `id` and no later
event is a decodable reply bearing that id, the entry stays in the
pending table through every subsequent step (invokes by other callers
and unrelated or malformed replies included): abandoning the wait does
not remove it.  The counter hypotheses rule out the practically
unreachable wraparound of the 64-bit id counter. -/
theorem abandoned_entry_persists :
    ∀ (evs : List Event) (s : SysState) (id c : Nat),
      lookupPending s.pending id = some c →
      id < s.next_id →
      s.next_id + countInvokes evs < u64Size →
      (∀ e ∈ evs, eventResolvesId e id = false) →
      lookupPending (runEvents s evs).pending id = some c := by
  intro evs
  induction evs with
  | nil =>
    intro s id c hlook _ _ _
    exact hlook
  | cons e es ih =>
    intro s id c hlook hlt hwrap hnor
    cases e with
    | invoke c2 =>
      simp only [countInvokes] at hwrap
      have hmod : (s.next_id + 1) % u64Size = s.next_id + 1 :=
        Nat.mod_eq_of_lt (by omega)
      apply ih (s.doInvoke c2) id c
      · show lookupPending
          (insertPending s.pending s.next_id c2) id = some c
        simp only [insertPending, lookupPending,
          if_neg (by omega : s.next_id ≠ id)]
        rw [lookupPending_erasePending_ne s.pending
          (by omega : id ≠ s.next_id)]
        exact hlook
      · show id < (s.next_id + 1) % u64Size
        omega
      · show (s.next_id + 1) % u64Size + countInvokes es < u64Size
        omega
      · exact fun e2 he2 => hnor e2 (List.mem_cons_of_mem _ he2)
    | inbound v =>
      simp only [countInvokes] at hwrap
      have hhead := hnor (.inbound v) (List.mem_cons_self _ _)
      apply ih (s.onInbound v) id c
      · cases hdec : decodeResponse v with
        | none =>
          simp only [SysState.onInbound, hdec]
          exact hlook
        | some r =>
          have hne : id ≠ r.id := by
            simp only [eventResolvesId, hdec, beq_eq_false_iff_ne] at hhead
            exact Ne.symm hhead
          simp only [SysState.onInbound, hdec, SysState.doResolve]
          cases hl : lookupPending s.pending r.id with
          | none => exact hlook
          | some c3 =>
            rw [lookupPending_erasePending_ne s.pending hne]
            exact hlook
      · rw [onInbound_next_id]
        exact hlt
      · rw [onInbound_next_id]
        omega
      · exact fun e2 he2 => hnor e2 (List.mem_cons_of_mem _ he2)

/-- Witness for C9: the entry for id 3 survives a later call and an
unrelated reply (id 4). -/
theorem abandoned_entry_persists_witness :
    lookupPending (runEvents ⟨5, [(3, 7)], [], []⟩
      [Event.invoke 11,
       Event.inbound (Value.obj [("id", Value.num 4),
         ("success", Value.bool false)])]).pending 3 = some 7 :=
  abandoned_entry_persists
    [Event.invoke 11,
     Event.inbound (Value.obj [("id", Value.num 4),
       ("success", Value.bool false)])]
    ⟨5, [(3, 7)], [], []⟩ 3 7 rfl (by decide) (by decide) (by decide)

end FrontBridge
